import Mathlib

/-!
Shallow embedding of the preference-vector construction and item-ranking
pipeline of the movie recommendation system (source files:
`backend/rules.py`, `backend/utils.py`, `backend/recommend.py`,
`backend/app.py`, `backend/tmdb.py`).  Real-valued quantities are modelled
with `ℚ` (all constants in the source are exact decimals), genre vectors
with `List ℚ` of length 12, and fallible or optional values with `Option`.
-/

namespace MovieRec

/-! ### Genre taxonomy (rules.py lines 3-9) -/

/-- The fixed ordered list of the 12 genre names (`GENRES` in rules.py). -/
def GENRES : List String :=
  ["Action", "Adventure", "Animation", "Comedy", "Crime",
   "Drama", "Fantasy", "Horror", "Mystery", "Romance",
   "Sci-Fi", "Thriller"]

/-- `GENRE_INDEX` in rules.py: the dictionary `{g: i for i, g in enumerate(GENRES)}`,
embedded as the lookup function it denotes; `none` models `g not in GENRE_INDEX`. -/
def GENRE_INDEX (g : String) : Option ℕ :=
  if g = "Action" then some 0
  else if g = "Adventure" then some 1
  else if g = "Animation" then some 2
  else if g = "Comedy" then some 3
  else if g = "Crime" then some 4
  else if g = "Drama" then some 5
  else if g = "Fantasy" then some 6
  else if g = "Horror" then some 7
  else if g = "Mystery" then some 8
  else if g = "Romance" then some 9
  else if g = "Sci-Fi" then some 10
  else if g = "Thriller" then some 11
  else none

/-! ### Vector update helpers (numpy `vec[i] += w` / `vec[i] *= c`) -/

/-- `vec[i] += w` on a numpy array, as a list update. -/
def addAt (v : List ℚ) (i : ℕ) (w : ℚ) : List ℚ := v.set i (v.getD i 0 + w)

/-- `vec[i] *= c` on a numpy array, as a list update. -/
def mulAt (v : List ℚ) (i : ℕ) (c : ℚ) : List ℚ := v.set i (v.getD i 0 * c)

/-! ### Rule engine (rules.py lines 11-112) -/

/-- rules.py lines 23-25 / 28-30: for each genre in the given list that is a
recognized taxonomy entry, add 0.50 to that genre's weight. -/
def genre_list_signal (gs : List String) (v : List ℚ) : List ℚ :=
  gs.foldl (fun vec g =>
    match GENRE_INDEX g with
    | some i => addAt vec i (1/2)
    | none => vec) v

/-- rules.py lines 33-53: the `context_map` dict; `.get(watching_context, {})`
is modelled by returning `[]` for unknown contexts. -/
def context_map (watching_context : String) : List (String × ℚ) :=
  if watching_context = "friends" then
    [("Comedy", 0.40), ("Action", 0.35), ("Adventure", 0.25)]
  else if watching_context = "partner" then
    [("Romance", 0.60), ("Drama", 0.40)]
  else if watching_context = "family" then
    [("Animation", 0.45), ("Comedy", 0.35), ("Adventure", 0.25)]
  else if watching_context = "alone" then
    [("Drama", 0.30), ("Thriller", 0.25), ("Mystery", 0.20)]
  else []

/-- rules.py lines 60-87: the `mood_map` dict. -/
def mood_map (current_mood : String) : List (String × ℚ) :=
  if current_mood = "happy" then
    [("Comedy", 0.50), ("Romance", 0.30), ("Adventure", 0.20)]
  else if current_mood = "excited" then
    [("Action", 0.50), ("Thriller", 0.40), ("Adventure", 0.30)]
  else if current_mood = "romantic" then
    [("Romance", 0.70), ("Drama", 0.40)]
  else if current_mood = "sad" then
    [("Drama", 0.50), ("Romance", 0.30)]
  else if current_mood = "scared" then
    [("Horror", 0.60), ("Thriller", 0.40)]
  else if current_mood = "relaxed" then
    [("Drama", 0.40), ("Comedy", 0.30)]
  else []

/-- rules.py lines 56-57 / 90-91: `vec[GENRE_INDEX[g]] += weight` for every
entry of a boost table (all table genres are taxonomy entries). -/
def addBoosts (tbl : List (String × ℚ)) (v : List ℚ) : List ℚ :=
  tbl.foldl (fun vec p =>
    match GENRE_INDEX p.1 with
    | some i => addAt vec i p.2
    | none => vec) v

/-- rules.py steps 1-4 (lines 20-91): the zero-initialized vector after all
four additive signal sources, before the penalties and normalization. -/
def additive_signal_vector (favorite_movie_genres favorite_genres : List String)
    (watching_context current_mood : String) : List ℚ :=
  let vec := List.replicate 12 (0 : ℚ)
  let vec := genre_list_signal favorite_movie_genres vec
  let vec := genre_list_signal favorite_genres vec
  let vec := addBoosts (context_map watching_context) vec
  let vec := addBoosts (mood_map current_mood) vec
  vec

/-- rules.py lines 97-98 etc.: `for g in penalty_genres: vec[GENRE_INDEX[g]] *= c`. -/
def mulGenres (gs : List String) (c : ℚ) (v : List ℚ) : List ℚ :=
  gs.foldl (fun vec g =>
    match GENRE_INDEX g with
    | some i => mulAt vec i c
    | none => vec) v

/-- rules.py step 5 (lines 93-110): the three conditional multiplicative penalties. -/
def apply_penalties (watching_context current_mood : String) (v : List ℚ) : List ℚ :=
  let v := if watching_context = "partner" ∧ current_mood = "romantic" then
      mulGenres ["Action", "Horror", "Thriller", "Sci-Fi"] 0.2 v else v
  let v := if current_mood = "scared" ∧ watching_context = "alone" then
      mulGenres ["Comedy", "Romance", "Animation"] 0.2 v else v
  let v := if watching_context = "friends" ∧ current_mood = "excited" then
      mulGenres ["Drama", "Romance"] 0.3 v else v
  v

/-- rules.py lines 11-12: `v / v.sum() if v.sum() > 0 else v`. -/
def _normalize (v : List ℚ) : List ℚ :=
  if 0 < v.sum then v.map (fun x => x / v.sum) else v

/-- rules.py lines 14-112: `build_rule_preference_vector`, which performs the
additive steps 1-4, then the penalties (step 5), then normalization (step 6). -/
def build_rule_preference_vector (favorite_movie_genres favorite_genres : List String)
    (watching_context current_mood : String) : List ℚ :=
  _normalize (apply_penalties watching_context current_mood
    (additive_signal_vector favorite_movie_genres favorite_genres
      watching_context current_mood))

/-! ### Candidate items and the popularity filter (recommend.py lines 75-86) -/

/-- A TMDB content record, restricted to the fields the core pipeline reads.
`Option` models the Python `dict.get` calls with their defaults. -/
structure Item where
  genre_ids : Option (List ℕ)
  popularity : Option ℚ
deriving DecidableEq

/-- `item.get('popularity', 0)`. -/
def Item.pop (it : Item) : ℚ := it.popularity.getD 0

/-- `item.get('genre_ids', [])`. -/
def Item.gids (it : Item) : List ℕ := it.genre_ids.getD []

/-- recommend.py lines 75-86: `apply_popularity_filter`. -/
def apply_popularity_filter (ranked_items : List (ℚ × Item))
    (popularity_bias : String) : List (ℚ × Item) :=
  if popularity_bias = "popular" then
    ranked_items.filter (fun p => decide (100 < p.2.pop))
  else if popularity_bias = "underrated" then
    ranked_items.filter (fun p => decide (p.2.pop < 100))
  else
    ranked_items

/-! ### The stable descending sort used by the Ranker and the re-ranker

Both `utils.py` line 14 and `recommend.py` line 291 run Python's
`list.sort(key=lambda x: x[0], reverse=True)`, the stable sort by
descending numeric score.  It is embedded as the canonical stable
descending insertion sort on score/payload pairs. -/

/-- Insert a pair into a descending-sorted list, before the first element
whose score is at most the new pair's score (so that, among equal scores,
earlier input stays first). -/
def insertDesc {α : Type} (x : ℚ × α) : List (ℚ × α) → List (ℚ × α)
  | [] => [x]
  | y :: ys => if y.1 ≤ x.1 then x :: y :: ys else y :: insertDesc x ys

/-- The stable sort by descending score (`sort(key=lambda x: x[0], reverse=True)`). -/
def sortDesc {α : Type} : List (ℚ × α) → List (ℚ × α)
  | [] => []
  | x :: xs => insertDesc x (sortDesc xs)

/-! ### Ranker (utils.py lines 6-15) -/

/-- `np.dot` of two equal-length vectors. -/
def dot (v w : List ℚ) : ℚ := (List.zipWith (· * ·) v w).sum

/-- utils.py lines 6-15: `rank_items` — score every item by the dot product
of the preference vector with its built genre vector, then sort descending,
comparing only on the score. -/
def rank_items {α γ : Type} (items : List α) (preference_vector : List ℚ)
    (genre_index : γ) (vector_builder : α → γ → List ℚ) : List (ℚ × α) :=
  sortDesc (items.map (fun item =>
    (dot preference_vector (vector_builder item genre_index), item)))

/-! ### Diversity re-ranker (recommend.py lines 258-292) -/

/-- recommend.py line 279: `len(a & b) / len(a | b)` on two Python sets,
the sets being modelled as duplicate-free lists. -/
def jaccard_overlap (a b : List ℕ) : ℚ :=
  ((a.filter (fun g => decide (g ∈ b))).length : ℚ) /
    ((a ++ b.filter (fun g => decide (g ∉ a))).length : ℚ)

/-- recommend.py lines 266-288: one iteration of the greedy selection loop of
`diversify_results` — the first item is appended with unchanged score, every
later item with the diversity penalty applied. -/
def div_step (selected : List (ℚ × Item)) (si : ℚ × Item) : List (ℚ × Item) :=
  if selected = [] then selected ++ [si]
  else
    let item_genres := si.2.gids.dedup
    let overlap_scores := selected.filterMap (fun sj =>
      let selected_genres := sj.2.gids.dedup
      if item_genres ≠ [] ∧ selected_genres ≠ [] then
        some (jaccard_overlap item_genres selected_genres)
      else none)
    let avg_overlap :=
      if overlap_scores ≠ [] then overlap_scores.sum / (overlap_scores.length : ℚ)
      else 0
    selected ++ [(si.1 * (1 - avg_overlap * 0.3), si.2)]

/-- recommend.py lines 263-288: the greedy selection loop of
`diversify_results`, growing `selected` left to right. -/
def div_select (candidates : List (ℚ × Item)) : List (ℚ × Item) :=
  candidates.foldl div_step []

/-- recommend.py lines 258-292: `diversify_results`.  An input of at most
`top_n` items is returned as is; otherwise only the top `top_n` candidates
are processed and the re-sorted selection is returned. -/
def diversify_results (ranked_items : List (ℚ × Item)) (top_n : ℕ) : List (ℚ × Item) :=
  if ranked_items.length ≤ top_n then ranked_items
  else sortDesc (div_select (ranked_items.take top_n))

/-! ### Blender (recommend.py lines 164-196, app.py lines 133-153) -/

/-- The three "strong" (mood, context) keys shared by both entry points
(`strong_preference_contexts` / `strong_contexts`). -/
def strong_context_keys : List (String × String) :=
  [("romantic", "partner"), ("scared", "alone"), ("excited", "friends")]

/-- Mode selection: `(1.0, 0.0)` for a strong key, `(0.85, 0.15)` otherwise. -/
def blend_weights (context_key : String × String) : ℚ × ℚ :=
  if context_key ∈ strong_context_keys then (1, 0) else (0.85, 0.15)

/-- `final_pref = alpha * rule_vec + beta * ml_vec` (element-wise on numpy
arrays of equal shape). -/
def blend (rule_vec ml_vec : List ℚ) (context_key : String × String) : List ℚ :=
  List.zipWith (· + ·)
    (rule_vec.map (fun x => (blend_weights context_key).1 * x))
    (ml_vec.map (fun x => (blend_weights context_key).2 * x))

/-! ### Context / mood normalization (recommend.py lines 171-182, app.py lines 140-150) -/

/-- The Python substring test `t in s`. -/
def strContains (s t : String) : Bool := decide (t.data <:+: s.data)

/-- recommend.py lines 171-180: lower-case, strip, then canonicalize the
watching context by substring containment (CLI entry point). -/
def normalize_context_cli (c : String) : String :=
  let n := c.toLower.trim
  if strContains n "friend" then "friends"
  else if strContains n "partner" || strContains n "spouse" then "partner"
  else if strContains n "family" || strContains n "famil" then "family"
  else if strContains n "alone" || strContains n "solo" then "alone"
  else n

/-- app.py lines 140-148: the service entry point's canonicalization, which
checks only "friend", "partner", "family" and "alone". -/
def normalize_context_service (c : String) : String :=
  let n := c.toLower.trim
  if strContains n "friend" then "friends"
  else if strContains n "partner" then "partner"
  else if strContains n "family" then "family"
  else if strContains n "alone" then "alone"
  else n

/-- recommend.py lines 30-38: the questionnaire strips and lower-cases the
mood and context answers as they are read. -/
def cli_input_string (raw : String) : String := raw.trim.toLower

/-- recommend.py lines 133-138: the CLI passes the questionnaire strings —
not the canonicalized context — to `build_rule_preference_vector`. -/
def cli_rule_vector (favorite_movie_genres favorite_genres : List String)
    (raw_context raw_mood : String) : List ℚ :=
  build_rule_preference_vector favorite_movie_genres favorite_genres
    (cli_input_string raw_context) (cli_input_string raw_mood)

/-- recommend.py line 182: `(mood.lower().strip(), normalized_context)`. -/
def cli_context_key (raw_mood raw_context : String) : String × String :=
  ((cli_input_string raw_mood).toLower.trim,
    normalize_context_cli (cli_input_string raw_context))

/-- app.py lines 115-120: the service passes the raw request strings to
`build_rule_preference_vector`. -/
def service_rule_vector (favorite_movie_genres favorite_genres : List String)
    (watching_context current_mood : String) : List ℚ :=
  build_rule_preference_vector favorite_movie_genres favorite_genres
    watching_context current_mood

/-- app.py line 150: `(request.current_mood.lower().strip(), normalized_context)`. -/
def service_context_key (current_mood watching_context : String) : String × String :=
  (current_mood.toLower.trim, normalize_context_service watching_context)

/-! ### Oracle fallback (app.py lines 124-131, recommend.py line 152)

The correction oracle is the external collaborator `predict`; a prediction
that can fail is modelled as a function into `Option`. -/

/-- app.py lines 124-131: if the model is unloaded, or its prediction call
raises, the rule vector is substituted. -/
def ml_vec_service (ml_model : Option (List ℚ → Option (List ℚ)))
    (rule_vec : List ℚ) : List ℚ :=
  match ml_model with
  | some predict =>
    match predict rule_vec with
    | some v => v
    | none => rule_vec
  | none => rule_vec

/-- recommend.py line 152: `ml_vec = model.predict(rule_vec.reshape(1, -1))[0]`
with no exception handler — a failing call propagates to the caller. -/
def ml_vec_cli (predict : List ℚ → Option (List ℚ)) (rule_vec : List ℚ) :
    Option (List ℚ) :=
  predict rule_vec

/-! ### Favorite-genre argument selection (recommend.py lines 113, 133-138;
app.py lines 112-120) -/

/-- `list(set(fav_movie_genres + favorite_genres))`: the combined,
deduplicated genre list (CPython's set order is unspecified; the embedding
keeps first occurrences). -/
def all_favorite_genres (fav_movie_genres favorite_genres : List String) : List String :=
  (fav_movie_genres ++ favorite_genres).dedup

/-- Both entry points call the rule engine with
`favorite_movie_genres = fav_movie_genres if fav_movie_genres else all_favorite_genres`
and `favorite_genres = all_favorite_genres`. -/
def rule_call (fav_movie_genres user_favorite_genres : List String)
    (watching_context current_mood : String) : List ℚ :=
  let afg := all_favorite_genres fav_movie_genres user_favorite_genres
  build_rule_preference_vector
    (if fav_movie_genres = [] then afg else fav_movie_genres) afg
    watching_context current_mood

/-! ### TMDB genre identifier map and the smart genre filter
(tmdb.py lines 23-47, recommend.py lines 327-395) -/

/-- tmdb.py lines 23-47: `TMDB_GENRE_MAP` (movie and TV identifier ranges). -/
def TMDB_GENRE_MAP : List (ℕ × String) :=
  [(28, "Action"), (12, "Adventure"), (16, "Animation"), (35, "Comedy"),
   (80, "Crime"), (18, "Drama"), (14, "Fantasy"), (27, "Horror"),
   (9648, "Mystery"), (10749, "Romance"), (878, "Sci-Fi"), (53, "Thriller"),
   (10759, "Action"), (10762, "Animation"), (10763, "Drama"), (10764, "Drama"),
   (10765, "Sci-Fi"), (10766, "Drama"), (10767, "Comedy"), (10768, "Drama"),
   (37, "Drama")]

/-- `TMDB_GENRE_MAP.get(gid)`. -/
def tmdb_genre_name (gid : ℕ) : Option String := TMDB_GENRE_MAP.lookup gid

/-- recommend.py lines 331-346: the preferred genres, banned genre names and
minimum score threshold for each strong context key. -/
def smart_filter_rules (context_key : String × String) :
    List String × List String × ℚ :=
  if context_key = ("romantic", "partner") then
    (["Romance", "Drama", "Comedy"], ["Horror", "Thriller"], 0.15)
  else if context_key = ("scared", "alone") then
    (["Horror", "Thriller", "Mystery"], ["Comedy", "Animation", "Romance"], 0.05)
  else if context_key = ("excited", "friends") then
    (["Action", "Comedy", "Adventure", "Thriller"], [], 0.20)
  else ([], [], 0)

/-- recommend.py line 350: `[gid for gid, name in TMDB_GENRE_MAP.items() if name in banned]`. -/
def banned_genre_ids (banned_names : List String) : List ℕ :=
  (TMDB_GENRE_MAP.filter (fun p => decide (p.2 ∈ banned_names))).map Prod.fst

/-- recommend.py lines 353-366: the primary filtering pass — keep an item if
(it has any preferred genre or its score reaches the threshold) and it has
no banned genre identifier. -/
def smart_filter_primary (preferred : List String) (bids : List ℕ) (thr : ℚ)
    (ranked : List (ℚ × Item)) : List (ℚ × Item) :=
  ranked.filter (fun p =>
    let gids := p.2.gids.dedup
    let names := gids.map (fun g => (tmdb_genre_name g).getD "")
    (names.any (fun n => decide (n ∈ preferred)) || decide (thr ≤ p.1)) &&
      !(gids.any (fun g => decide (g ∈ bids))))

/-- recommend.py lines 384-390: the relaxation fallback — all items with no
banned genre, truncated to the first 15. -/
def smart_filter_relaxed (bids : List ℕ) (ranked : List (ℚ × Item)) :
    List (ℚ × Item) :=
  (ranked.filter (fun p => !(p.2.gids.any (fun g => decide (g ∈ bids))))).take 15

/-- recommend.py lines 327-395: the smart genre filter for a strong context
key, with the under-5-survivors relaxation. -/
def smart_genre_filter (context_key : String × String)
    (ranked : List (ℚ × Item)) : List (ℚ × Item) :=
  let rules := smart_filter_rules context_key
  let bids := banned_genre_ids rules.2.1
  let filtered := smart_filter_primary rules.1 bids rules.2.2 ranked
  if filtered.length < 5 then smart_filter_relaxed bids ranked else filtered

/-- Claim-side keep predicate of the Context Filter, following the spec's
words: the item carries at least one preferred genre (by identifier, mapped
through the id-to-name table) or its score is at or above the threshold, and
it has no banned genre identifier. -/
def spec_smart_keep (preferred banned_names : List String) (thr : ℚ)
    (p : ℚ × Item) : Prop :=
  ((∃ gid ∈ p.2.gids, (tmdb_genre_name gid).getD "" ∈ preferred) ∨ thr ≤ p.1) ∧
    ¬∃ gid ∈ p.2.gids, gid ∈ banned_genre_ids banned_names

instance (preferred banned_names : List String) (thr : ℚ) (p : ℚ × Item) :
    Decidable (spec_smart_keep preferred banned_names thr p) := by
  unfold spec_smart_keep; infer_instance

/-- Claim-side predicate: the item has no banned genre identifier. -/
def spec_no_banned (banned_names : List String) (p : ℚ × Item) : Prop :=
  ¬∃ gid ∈ p.2.gids, gid ∈ banned_genre_ids banned_names

instance (banned_names : List String) (p : ℚ × Item) :
    Decidable (spec_no_banned banned_names p) := by
  unfold spec_no_banned; infer_instance

/-! ## Helper lemmas about list updates and sums -/

theorem getD_set_self (v : List ℚ) (i : ℕ) (b : ℚ) (h : i < v.length) :
    (v.set i b).getD i 0 = b := by
  induction v generalizing i with
  | nil => simp at h
  | cons x xs ih =>
    cases i with
    | zero => simp
    | succ j => simpa using ih j (by simpa using h)

theorem getD_set_ne (v : List ℚ) (i j : ℕ) (b : ℚ) (h : i ≠ j) :
    (v.set i b).getD j 0 = v.getD j 0 := by
  induction v generalizing i j with
  | nil => simp
  | cons x xs ih =>
    cases i with
    | zero => cases j with
      | zero => exact absurd rfl h
      | succ k => simp
    | succ i' => cases j with
      | zero => simp
      | succ k => simpa using ih i' k (by omega)

theorem set_of_length_le (v : List ℚ) (i : ℕ) (b : ℚ) (h : v.length ≤ i) :
    v.set i b = v := by
  induction v generalizing i with
  | nil => simp
  | cons x xs ih =>
    cases i with
    | zero => simp at h
    | succ j => simpa using ih j (by simpa using h)

theorem sum_set' (v : List ℚ) (i : ℕ) (b : ℚ) (h : i < v.length) :
    (v.set i b).sum = v.sum - v.getD i 0 + b := by
  induction v generalizing i with
  | nil => simp at h
  | cons x xs ih =>
    cases i with
    | zero => simp only [List.set_cons_zero, List.sum_cons, List.getD_cons_zero]; ring
    | succ j =>
      have := ih j (by simpa using h)
      simp only [List.set_cons_succ, List.sum_cons, List.getD_cons_succ, this]; ring

theorem getD_nonneg (v : List ℚ) (i : ℕ) (hv : ∀ x ∈ v, 0 ≤ x) :
    0 ≤ v.getD i 0 := by
  induction v generalizing i with
  | nil => simp
  | cons x xs ih =>
    cases i with
    | zero => exact hv x (by simp)
    | succ j => simpa using ih j (fun y hy => hv y (by simp [hy]))

theorem mem_set_cases {v : List ℚ} {i : ℕ} {b x : ℚ} (h : x ∈ v.set i b) :
    x ∈ v ∨ x = b := by
  induction v generalizing i with
  | nil => simp at h
  | cons y ys ih =>
    cases i with
    | zero =>
      rcases List.mem_cons.mp h with h | h
      · exact Or.inr h
      · exact Or.inl (List.mem_cons_of_mem _ h)
    | succ j =>
      rcases List.mem_cons.mp h with h | h
      · exact Or.inl (h ▸ List.mem_cons_self _ _)
      · rcases ih h with h | h
        · exact Or.inl (List.mem_cons_of_mem _ h)
        · exact Or.inr h

theorem getD_le_sum (v : List ℚ) (i : ℕ) (hv : ∀ x ∈ v, 0 ≤ x) :
    v.getD i 0 ≤ v.sum := by
  induction v generalizing i with
  | nil => simp
  | cons x xs ih =>
    have hx : 0 ≤ x := hv x (by simp)
    have hs : 0 ≤ xs.sum := List.sum_nonneg (fun y hy => hv y (by simp [hy]))
    cases i with
    | zero => simp only [List.getD_cons_zero, List.sum_cons]; linarith
    | succ j =>
      have := ih j (fun y hy => hv y (by simp [hy]))
      simp only [List.getD_cons_succ, List.sum_cons]; linarith

theorem sum_map_div (v : List ℚ) (s : ℚ) :
    (v.map (fun x => x / s)).sum = v.sum / s := by
  induction v with
  | nil => simp
  | cons x xs ih => simp [ih, add_div]

theorem eq_zero_list_of_sum (v : List ℚ) (hv : ∀ x ∈ v, 0 ≤ x) (h : v.sum = 0) :
    v = List.replicate v.length 0 := by
  induction v with
  | nil => simp
  | cons x xs ih =>
    have hx : 0 ≤ x := hv x (by simp)
    have hs : 0 ≤ xs.sum := List.sum_nonneg (fun y hy => hv y (by simp [hy]))
    have hsum : x + xs.sum = 0 := by simpa using h
    have hx0 : x = 0 := by linarith
    have hxs : xs.sum = 0 := by linarith
    have hxs' := ih (fun y hy => hv y (by simp [hy])) hxs
    rw [hx0, List.length_cons, List.replicate_succ]
    exact congrArg (List.cons 0) hxs'

/-! ## Invariants of the additive signal steps -/

theorem addAt_length (v : List ℚ) (i : ℕ) (w : ℚ) :
    (addAt v i w).length = v.length := by simp [addAt]

theorem mulAt_length (v : List ℚ) (i : ℕ) (c : ℚ) :
    (mulAt v i c).length = v.length := by simp [mulAt]

theorem addAt_nonneg (v : List ℚ) (i : ℕ) (w : ℚ) (hv : ∀ x ∈ v, 0 ≤ x)
    (hw : 0 ≤ w) : ∀ x ∈ addAt v i w, 0 ≤ x := by
  intro x hx
  rcases mem_set_cases hx with h | h
  · exact hv x h
  · subst h; exact add_nonneg (getD_nonneg v i hv) hw

theorem mulAt_nonneg (v : List ℚ) (i : ℕ) (c : ℚ) (hv : ∀ x ∈ v, 0 ≤ x)
    (hc : 0 ≤ c) : ∀ x ∈ mulAt v i c, 0 ≤ x := by
  intro x hx
  rcases mem_set_cases hx with h | h
  · exact hv x h
  · subst h; exact mul_nonneg (getD_nonneg v i hv) hc

theorem mulAt_sum_pos (v : List ℚ) (i : ℕ) (c : ℚ) (hv : ∀ x ∈ v, 0 ≤ x)
    (hs : 0 < v.sum) (hc : 0 < c) (hc1 : c ≤ 1) : 0 < (mulAt v i c).sum := by
  by_cases h : i < v.length
  · have he : 0 ≤ v.getD i 0 := getD_nonneg v i hv
    have hle : v.getD i 0 ≤ v.sum := getD_le_sum v i hv
    have := sum_set' v i (v.getD i 0 * c) h
    rw [mulAt, this]
    nlinarith
  · rw [mulAt, set_of_length_le v i _ (by omega)]
    exact hs

theorem genre_list_signal_cons (g : String) (gs : List String) (v : List ℚ) :
    genre_list_signal (g :: gs) v = genre_list_signal gs
      (match GENRE_INDEX g with
       | some i => addAt v i (1/2)
       | none => v) := rfl

theorem genre_list_signal_length (gs : List String) (v : List ℚ) :
    (genre_list_signal gs v).length = v.length := by
  induction gs generalizing v with
  | nil => rfl
  | cons g gs ih =>
    rw [genre_list_signal_cons]
    cases hg : GENRE_INDEX g <;> simp only [hg] <;> rw [ih] <;> simp [addAt_length]

theorem genre_list_signal_nonneg (gs : List String) (v : List ℚ)
    (hv : ∀ x ∈ v, 0 ≤ x) : ∀ x ∈ genre_list_signal gs v, 0 ≤ x := by
  induction gs generalizing v with
  | nil => exact hv
  | cons g gs ih =>
    rw [genre_list_signal_cons]
    cases hg : GENRE_INDEX g <;> simp only [hg]
    · exact ih v hv
    · exact ih _ (addAt_nonneg v _ _ hv (by norm_num))

theorem addBoosts_cons (p : String × ℚ) (tbl : List (String × ℚ)) (v : List ℚ) :
    addBoosts (p :: tbl) v = addBoosts tbl
      (match GENRE_INDEX p.1 with
       | some i => addAt v i p.2
       | none => v) := rfl

theorem addBoosts_length (tbl : List (String × ℚ)) (v : List ℚ) :
    (addBoosts tbl v).length = v.length := by
  induction tbl generalizing v with
  | nil => rfl
  | cons p tbl ih =>
    rw [addBoosts_cons]
    cases hg : GENRE_INDEX p.1 <;> simp only [hg] <;> rw [ih] <;> simp [addAt_length]

theorem addBoosts_nonneg (tbl : List (String × ℚ)) (v : List ℚ)
    (hv : ∀ x ∈ v, 0 ≤ x) (ht : ∀ p ∈ tbl, 0 ≤ p.2) :
    ∀ x ∈ addBoosts tbl v, 0 ≤ x := by
  induction tbl generalizing v with
  | nil => exact hv
  | cons p tbl ih =>
    rw [addBoosts_cons]
    have hp : 0 ≤ p.2 := ht p (by simp)
    have ht' : ∀ q ∈ tbl, 0 ≤ q.2 := fun q hq => ht q (by simp [hq])
    cases hg : GENRE_INDEX p.1 <;> simp only [hg]
    · exact ih v hv ht'
    · exact ih _ (addAt_nonneg v _ _ hv hp) ht'

theorem context_map_nonneg (c : String) : ∀ p ∈ context_map c, 0 ≤ p.2 := by
  unfold context_map
  split
  any_goals split
  any_goals split
  any_goals split
  all_goals intro p hp
  all_goals first
  | exact absurd hp (List.not_mem_nil p)
  | (fin_cases hp <;> norm_num)

theorem mood_map_nonneg (m : String) : ∀ p ∈ mood_map m, 0 ≤ p.2 := by
  unfold mood_map
  split
  any_goals split
  any_goals split
  any_goals split
  any_goals split
  any_goals split
  all_goals intro p hp
  all_goals first
  | exact absurd hp (List.not_mem_nil p)
  | (fin_cases hp <;> norm_num)

theorem additive_signal_vector_length (fm fg : List String) (c m : String) :
    (additive_signal_vector fm fg c m).length = 12 := by
  unfold additive_signal_vector
  rw [addBoosts_length, addBoosts_length, genre_list_signal_length,
    genre_list_signal_length]
  simp

theorem additive_signal_vector_nonneg (fm fg : List String) (c m : String) :
    ∀ x ∈ additive_signal_vector fm fg c m, 0 ≤ x := by
  unfold additive_signal_vector
  exact addBoosts_nonneg _ _
    (addBoosts_nonneg _ _
      (genre_list_signal_nonneg _ _
        (genre_list_signal_nonneg _ _ (by simp)))
      (context_map_nonneg c))
    (mood_map_nonneg m)

/-! ## Invariants of the penalty and normalization steps -/

theorem mulGenres_cons (g : String) (gs : List String) (c : ℚ) (v : List ℚ) :
    mulGenres (g :: gs) c v = mulGenres gs c
      (match GENRE_INDEX g with
       | some i => mulAt v i c
       | none => v) := rfl

theorem mulGenres_nonneg (gs : List String) (c : ℚ) (v : List ℚ) (hc : 0 ≤ c)
    (hv : ∀ x ∈ v, 0 ≤ x) : ∀ x ∈ mulGenres gs c v, 0 ≤ x := by
  induction gs generalizing v with
  | nil => exact hv
  | cons g gs ih =>
    rw [mulGenres_cons]
    cases hg : GENRE_INDEX g <;> simp only [hg]
    · exact ih v hv
    · exact ih _ (mulAt_nonneg v _ _ hv hc)

theorem mulGenres_keep (gs : List String) (c : ℚ) (v : List ℚ) (hc : 0 < c)
    (hc1 : c ≤ 1) (h : (∀ x ∈ v, 0 ≤ x) ∧ 0 < v.sum) :
    (∀ x ∈ mulGenres gs c v, 0 ≤ x) ∧ 0 < (mulGenres gs c v).sum := by
  induction gs generalizing v with
  | nil => exact h
  | cons g gs ih =>
    rw [mulGenres_cons]
    cases hg : GENRE_INDEX g <;> simp only [hg]
    · exact ih v h
    · exact ih _ ⟨mulAt_nonneg v _ _ h.1 (le_of_lt hc),
        mulAt_sum_pos v _ _ h.1 h.2 hc hc1⟩

theorem mulGenres_ite_nonneg (P : Prop) [Decidable P] (gs : List String) (c : ℚ)
    (v : List ℚ) (hc : 0 ≤ c) (hv : ∀ x ∈ v, 0 ≤ x) :
    ∀ x ∈ (if P then mulGenres gs c v else v), 0 ≤ x := by
  split
  · exact mulGenres_nonneg gs c v hc hv
  · exact hv

theorem mulGenres_ite_keep (P : Prop) [Decidable P] (gs : List String) (c : ℚ)
    (v : List ℚ) (hc : 0 < c) (hc1 : c ≤ 1)
    (h : (∀ x ∈ v, 0 ≤ x) ∧ 0 < v.sum) :
    (∀ x ∈ (if P then mulGenres gs c v else v), 0 ≤ x) ∧
      0 < (if P then mulGenres gs c v else v).sum := by
  split
  · exact mulGenres_keep gs c v hc hc1 h
  · exact h

theorem apply_penalties_nonneg (c m : String) (v : List ℚ)
    (hv : ∀ x ∈ v, 0 ≤ x) : ∀ x ∈ apply_penalties c m v, 0 ≤ x := by
  simp only [apply_penalties]
  exact mulGenres_ite_nonneg _ _ _ _ (by norm_num)
    (mulGenres_ite_nonneg _ _ _ _ (by norm_num)
      (mulGenres_ite_nonneg _ _ _ _ (by norm_num) hv))

theorem apply_penalties_keep (c m : String) (v : List ℚ)
    (h : (∀ x ∈ v, 0 ≤ x) ∧ 0 < v.sum) :
    (∀ x ∈ apply_penalties c m v, 0 ≤ x) ∧ 0 < (apply_penalties c m v).sum := by
  simp only [apply_penalties]
  exact mulGenres_ite_keep _ _ _ _ (by norm_num) (by norm_num)
    (mulGenres_ite_keep _ _ _ _ (by norm_num) (by norm_num)
      (mulGenres_ite_keep _ _ _ _ (by norm_num) (by norm_num) h))

theorem apply_penalties_zero (c m : String) :
    apply_penalties c m (List.replicate 12 0) = List.replicate 12 0 := by
  simp only [apply_penalties]
  split_ifs <;> with_unfolding_all decide

theorem normalize_nonneg (v : List ℚ) (hv : ∀ x ∈ v, 0 ≤ x) :
    ∀ x ∈ _normalize v, 0 ≤ x := by
  unfold _normalize
  split
  next h =>
    intro x hx
    rcases List.mem_map.mp hx with ⟨y, hy, rfl⟩
    exact div_nonneg (hv y hy) (le_of_lt h)
  next h => exact hv

theorem normalize_sum_one (v : List ℚ) (h : 0 < v.sum) :
    (_normalize v).sum = 1 := by
  unfold _normalize
  rw [if_pos h, sum_map_div, div_self (ne_of_gt h)]

/-! ## Claims C2 and C4 -/

/-- C2: for all inputs, the Rule Engine's output vector has only non-negative
entries; when some additive contribution is present (the pre-penalty signal
vector is not all-zero) the entries sum to 1, and when every additive
contribution is absent the output is the all-zero vector. -/
theorem rule_vector_nonneg_sum_one (fm fg : List String) (c m : String) :
    (∀ x ∈ build_rule_preference_vector fm fg c m, 0 ≤ x) ∧
    (additive_signal_vector fm fg c m = List.replicate 12 0 →
      build_rule_preference_vector fm fg c m = List.replicate 12 0) ∧
    (additive_signal_vector fm fg c m ≠ List.replicate 12 0 →
      (build_rule_preference_vector fm fg c m).sum = 1) := by
  refine ⟨?_, ?_, ?_⟩
  · exact normalize_nonneg _
      (apply_penalties_nonneg c m _ (additive_signal_vector_nonneg fm fg c m))
  · intro h
    unfold build_rule_preference_vector
    rw [h, apply_penalties_zero]
    with_unfolding_all decide
  · intro h
    have hnn := additive_signal_vector_nonneg fm fg c m
    have hlen := additive_signal_vector_length fm fg c m
    have hs : 0 < (additive_signal_vector fm fg c m).sum := by
      rcases lt_or_eq_of_le (List.sum_nonneg hnn) with h' | h'
      · exact h'
      · exact absurd (by rw [← hlen]; exact eq_zero_list_of_sum _ hnn h'.symm) h
    exact normalize_sum_one _ (apply_penalties_keep c m _ ⟨hnn, hs⟩).2

/-- Witness for C2 at concrete inputs: a recognized favorite genre gives a
vector of sum 1, and no signal at all gives the all-zero vector. -/
theorem rule_vector_nonneg_sum_one_witness :
    (build_rule_preference_vector ["Action"] [] "x" "y").sum = 1 ∧
    build_rule_preference_vector [] [] "x" "y" = List.replicate 12 0 := by
  constructor
  · exact (rule_vector_nonneg_sum_one ["Action"] [] "x" "y").2.2
      (by with_unfolding_all decide)
  · exact (rule_vector_nonneg_sum_one [] [] "x" "y").2.1
      (by with_unfolding_all decide)

/-- C4: the rule engine is exactly `_normalize` after `apply_penalties` after
the additive boosts (penalties are multiplicative and run after every additive
step, before normalization), and at the input
`favorite_movie_genres = ["Action"]`, context "partner", mood "romantic",
applying the penalty before normalization differs from applying it after. -/
theorem penalties_multiplicative_before_normalization :
    (∀ fm fg c m, build_rule_preference_vector fm fg c m =
      _normalize (apply_penalties c m (additive_signal_vector fm fg c m))) ∧
    build_rule_preference_vector ["Action"] [] "partner" "romantic" ≠
      apply_penalties "partner" "romantic"
        (_normalize (additive_signal_vector ["Action"] [] "partner" "romantic")) :=
  ⟨fun _ _ _ _ => rfl, by with_unfolding_all decide⟩

/-! ## Claim C9: the popularity filter -/

/-- C9: the Popularity Filter keeps exactly the items with popularity above
100 for "popular", exactly those below 100 for "underrated", passes all
items through for any other bias, and removes an item with popularity
exactly 100 under both "popular" and "underrated". -/
theorem apply_popularity_filter_spec (items : List (ℚ × Item)) (bias : String) :
    (bias = "popular" → apply_popularity_filter items bias =
      items.filter (fun p => decide (100 < p.2.pop))) ∧
    (bias = "underrated" → apply_popularity_filter items bias =
      items.filter (fun p => decide (p.2.pop < 100))) ∧
    (bias ≠ "popular" → bias ≠ "underrated" →
      apply_popularity_filter items bias = items) ∧
    ((bias = "popular" ∨ bias = "underrated") →
      ∀ p ∈ items, p.2.pop = 100 → p ∉ apply_popularity_filter items bias) := by
  refine ⟨?_, ?_, ?_, ?_⟩
  · intro h; subst h; rfl
  · intro h; subst h; rfl
  · intro h1 h2; unfold apply_popularity_filter; rw [if_neg h1, if_neg h2]
  · rintro (h | h) p _ hpop hmem <;> subst h <;>
      unfold apply_popularity_filter at hmem <;> simp at hmem <;>
      rcases hmem with ⟨-, habs⟩ <;> rw [hpop] at habs <;> exact absurd habs (by norm_num)

/-- Witness for C9 at a concrete item list. -/
theorem apply_popularity_filter_spec_witness :
    apply_popularity_filter
      [((1 : ℚ), Item.mk none (some 150)), ((2 : ℚ), Item.mk none (some 100))]
      "popular" = [((1 : ℚ), Item.mk none (some 150))] ∧
    ((2 : ℚ), Item.mk none (some 100)) ∉ apply_popularity_filter
      [((1 : ℚ), Item.mk none (some 150)), ((2 : ℚ), Item.mk none (some 100))]
      "popular" := by
  have h := apply_popularity_filter_spec
    [((1 : ℚ), Item.mk none (some 150)), ((2 : ℚ), Item.mk none (some 100))] "popular"
  refine ⟨?_, ?_⟩
  · rw [h.1 rfl]; with_unfolding_all decide
  · exact h.2.2.2 (Or.inl rfl) _ (by simp) (by with_unfolding_all decide)

/-! ## Claim C5: the blender -/

theorem zipWith_add_map_map (a b : ℚ) (l₁ l₂ : List ℚ) :
    List.zipWith (· + ·) (l₁.map (fun x => a * x)) (l₂.map (fun x => b * x)) =
      List.zipWith (fun r o => a * r + b * o) l₁ l₂ := by
  induction l₁ generalizing l₂ with
  | nil => simp
  | cons x xs ih => cases l₂ <;> simp [ih]

theorem zipWith_one_zero (l₁ l₂ : List ℚ) (h : l₂.length = l₁.length) :
    List.zipWith (fun r o => 1 * r + 0 * o) l₁ l₂ = l₁ := by
  induction l₁ generalizing l₂ with
  | nil => simp
  | cons x xs ih =>
    cases l₂ with
    | nil => simp at h
    | cons y ys =>
      simp only [List.zipWith_cons_cons]
      rw [ih ys (by simpa using h)]
      norm_num

/-- C5: the Blender returns `alpha * rule_vec + beta * ml_vec` element-wise,
with `(alpha, beta) = (1, 0)` exactly for the three strong keys and
`(0.85, 0.15)` otherwise; for (romantic, partner) the result is the rule
vector itself, whatever the oracle produced. -/
theorem blend_mode_selection (rule_vec ml_vec : List ℚ) (key : String × String)
    (hlen : ml_vec.length = rule_vec.length) :
    blend rule_vec ml_vec key = List.zipWith
      (fun r o =>
        (if key = ("romantic", "partner") ∨ key = ("scared", "alone") ∨
            key = ("excited", "friends") then (1 : ℚ) else 0.85) * r +
        (if key = ("romantic", "partner") ∨ key = ("scared", "alone") ∨
            key = ("excited", "friends") then (0 : ℚ) else 0.15) * o)
      rule_vec ml_vec ∧
    (key = ("romantic", "partner") → blend rule_vec ml_vec key = rule_vec) := by
  have hmem : key ∈ strong_context_keys ↔
      (key = ("romantic", "partner") ∨ key = ("scared", "alone") ∨
        key = ("excited", "friends")) := by
    simp [strong_context_keys]
  constructor
  · by_cases hk : key ∈ strong_context_keys
    · have hd := hmem.mp hk
      unfold blend blend_weights
      rw [if_pos hk]
      simp only [hd, if_true, iff_true]
      exact zipWith_add_map_map 1 0 rule_vec ml_vec
    · have hd : ¬(key = ("romantic", "partner") ∨ key = ("scared", "alone") ∨
          key = ("excited", "friends")) := fun h => hk (hmem.mpr h)
      unfold blend blend_weights
      rw [if_neg hk]
      simp only [hd, if_false]
      exact zipWith_add_map_map 0.85 0.15 rule_vec ml_vec
  · intro hkey
    have hk : key ∈ strong_context_keys := hmem.mpr (Or.inl hkey)
    unfold blend blend_weights
    rw [if_pos hk]
    exact (zipWith_add_map_map 1 0 rule_vec ml_vec).trans
      (zipWith_one_zero rule_vec ml_vec hlen)

/-- Witness for C5: for the strong key (romantic, partner) the blend ignores
the oracle vector. -/
theorem blend_mode_selection_witness :
    blend [1, 2, 3] [9, 9, 9] ("romantic", "partner") = [1, 2, 3] :=
  (blend_mode_selection [1, 2, 3] [9, 9, 9] ("romantic", "partner") rfl).2 rfl

/-! ## Claim C6: oracle fallback -/

/-- C6 (amended): in the service entry point an unavailable oracle or a
failing prediction call is replaced by the rule vector and the request
continues; in the CLI entry point the prediction call has no handler, so a
failing call propagates instead of substituting. -/
theorem oracle_fallback_paths (rule_vec : List ℚ)
    (predict : List ℚ → Option (List ℚ)) :
    ml_vec_service none rule_vec = rule_vec ∧
    (predict rule_vec = none → ml_vec_service (some predict) rule_vec = rule_vec) ∧
    (∀ v, predict rule_vec = some v → ml_vec_service (some predict) rule_vec = v) ∧
    (predict rule_vec = none → ml_vec_cli predict rule_vec = none) := by
  refine ⟨rfl, ?_, ?_, ?_⟩
  · intro h; simp [ml_vec_service, h]
  · intro v h; simp [ml_vec_service, h]
  · intro h; exact h

/-- C6 counterexample: with a failing oracle the CLI pipeline produces no
result at all (the exception propagates) instead of continuing with the rule
vector as the service path does. -/
theorem cli_oracle_failure_propagates_cex :
    ml_vec_cli (fun _ => none) (List.replicate 12 0) = none ∧
    ml_vec_cli (fun _ => none) (List.replicate 12 0) ≠
      some (ml_vec_service none (List.replicate 12 0)) :=
  ⟨rfl, by simp [ml_vec_cli, ml_vec_service]⟩

/-- Witness for C6 at a concrete rule vector and failing oracle. -/
theorem oracle_fallback_paths_witness :
    ml_vec_service (some (fun _ => none)) [1] = [1] ∧
    ml_vec_cli (fun _ => none) [1] = none := by
  have h := oracle_fallback_paths [1] (fun _ => none)
  exact ⟨h.2.1 rfl, h.2.2.2 rfl⟩

/-! ## Claim C3: placement of the mood/context normalization -/

/-- C3 (amended): the substring canonicalization — with its stated priority
order — is applied only when the ContextKey for blending and filtering is
formed; the Rule Engine's context and mood table lookups receive the merely
lower-cased and trimmed questionnaire strings in the CLI path and the raw
request strings in the service path; the service canonicalization checks
only "friend", "partner", "family", "alone". -/
theorem context_normalization_placement (fm fg : List String)
    (raw_mood raw_context : String) :
    cli_rule_vector fm fg raw_context raw_mood =
      build_rule_preference_vector fm fg (raw_context.trim.toLower)
        (raw_mood.trim.toLower) ∧
    cli_context_key raw_mood raw_context =
      ((raw_mood.trim.toLower).toLower.trim,
        normalize_context_cli (raw_context.trim.toLower)) ∧
    service_rule_vector fm fg raw_context raw_mood =
      build_rule_preference_vector fm fg raw_context raw_mood ∧
    service_context_key raw_mood raw_context =
      (raw_mood.toLower.trim, normalize_context_service raw_context) ∧
    (strContains (raw_context.toLower.trim) "friend" = true →
      normalize_context_cli raw_context = "friends") ∧
    (strContains (raw_context.toLower.trim) "friend" = false →
      (strContains (raw_context.toLower.trim) "partner" ||
        strContains (raw_context.toLower.trim) "spouse") = true →
      normalize_context_cli raw_context = "partner") ∧
    (strContains (raw_context.toLower.trim) "friend" = false →
      (strContains (raw_context.toLower.trim) "partner" ||
        strContains (raw_context.toLower.trim) "spouse") = false →
      (strContains (raw_context.toLower.trim) "family" ||
        strContains (raw_context.toLower.trim) "famil") = true →
      normalize_context_cli raw_context = "family") ∧
    (strContains (raw_context.toLower.trim) "friend" = false →
      (strContains (raw_context.toLower.trim) "partner" ||
        strContains (raw_context.toLower.trim) "spouse") = false →
      (strContains (raw_context.toLower.trim) "family" ||
        strContains (raw_context.toLower.trim) "famil") = false →
      (strContains (raw_context.toLower.trim) "alone" ||
        strContains (raw_context.toLower.trim) "solo") = true →
      normalize_context_cli raw_context = "alone") ∧
    (strContains (raw_context.toLower.trim) "friend" = false →
      (strContains (raw_context.toLower.trim) "partner" ||
        strContains (raw_context.toLower.trim) "spouse") = false →
      (strContains (raw_context.toLower.trim) "family" ||
        strContains (raw_context.toLower.trim) "famil") = false →
      (strContains (raw_context.toLower.trim) "alone" ||
        strContains (raw_context.toLower.trim) "solo") = false →
      normalize_context_cli raw_context = raw_context.toLower.trim) := by
  refine ⟨rfl, rfl, rfl, rfl, ?_, ?_, ?_, ?_, ?_⟩
  · intro h1
    simp [normalize_context_cli, h1]
  · intro h1 h2
    simp [normalize_context_cli, h1, h2]
  · intro h1 h2 h3
    simp [normalize_context_cli, h1, h2, h3]
  · intro h1 h2 h3 h4
    simp [normalize_context_cli, h1, h2, h3, h4]
  · intro h1 h2 h3 h4
    simp [normalize_context_cli, h1, h2, h3, h4]

/-- C3 counterexample: in the CLI pipeline the Rule Engine's table lookup
uses the un-canonicalized context string.  For the answer "with friends" the
canonicalized context is "friends", yet the rule vector actually computed
differs from the one the canonicalized context would give — so the
canonicalization did not happen before the Rule Engine's lookup. -/
theorem rule_engine_lookup_not_canonicalized_cex :
    cli_rule_vector [] [] "with friends" "happy" ≠
      build_rule_preference_vector [] [] (normalize_context_cli "with friends")
        "happy" ∧
    normalize_context_cli "with friends" = "friends" := by
  constructor
  · with_unfolding_all decide
  · with_unfolding_all decide

/-- Witness for C3 at concrete strings: a context answer containing "friend"
canonicalizes to "friends" in the ContextKey. -/
theorem context_normalization_placement_witness :
    normalize_context_cli "  My FRIENDS " = "friends" :=
  (context_normalization_placement [] [] "m" "  My FRIENDS ").2.2.2.2.1
    (by with_unfolding_all decide)

/-! ## Properties of the stable descending sort -/

theorem insertDesc_perm {α : Type} (x : ℚ × α) (l : List (ℚ × α)) :
    (insertDesc x l).Perm (x :: l) := by
  induction l with
  | nil => exact List.Perm.refl _
  | cons y ys ih =>
    unfold insertDesc
    split
    · exact List.Perm.refl _
    · exact (ih.cons y).trans (List.Perm.swap x y ys)

theorem sortDesc_perm {α : Type} (l : List (ℚ × α)) : (sortDesc l).Perm l := by
  induction l with
  | nil => exact List.Perm.refl _
  | cons x xs ih => exact (insertDesc_perm x (sortDesc xs)).trans (ih.cons x)

theorem insertDesc_pairwise {α : Type} (x : ℚ × α) (l : List (ℚ × α))
    (h : l.Pairwise (fun a b => b.1 ≤ a.1)) :
    (insertDesc x l).Pairwise (fun a b => b.1 ≤ a.1) := by
  induction l with
  | nil => simp [insertDesc]
  | cons y ys ih =>
    rcases List.pairwise_cons.mp h with ⟨hy, hys⟩
    unfold insertDesc
    split
    next hc =>
      refine List.pairwise_cons.mpr ⟨?_, h⟩
      intro z hz
      rcases List.mem_cons.mp hz with rfl | hz
      · exact hc
      · exact le_trans (hy z hz) hc
    next hc =>
      refine List.pairwise_cons.mpr ⟨?_, ih hys⟩
      intro z hz
      rcases List.mem_cons.mp ((insertDesc_perm x ys).mem_iff.mp hz) with rfl | hz
      · exact le_of_lt (lt_of_not_le hc)
      · exact hy z hz

theorem sortDesc_pairwise {α : Type} (l : List (ℚ × α)) :
    (sortDesc l).Pairwise (fun a b => b.1 ≤ a.1) := by
  induction l with
  | nil => simp [sortDesc]
  | cons x xs ih => exact insertDesc_pairwise x (sortDesc xs) ih

theorem insertDesc_filter_ne {α : Type} (x : ℚ × α) (l : List (ℚ × α)) (s : ℚ)
    (hx : decide (x.1 = s) = false) :
    (insertDesc x l).filter (fun q => decide (q.1 = s)) =
      l.filter (fun q => decide (q.1 = s)) := by
  induction l with
  | nil => simp [insertDesc, hx]
  | cons y ys ih =>
    unfold insertDesc
    split
    · simp [List.filter_cons, hx]
    · simp only [List.filter_cons, ih]

theorem insertDesc_filter_eq {α : Type} (x : ℚ × α) (l : List (ℚ × α))
    (h : l.Pairwise (fun a b => b.1 ≤ a.1)) :
    (insertDesc x l).filter (fun q => decide (q.1 = x.1)) =
      x :: l.filter (fun q => decide (q.1 = x.1)) := by
  induction l with
  | nil => simp [insertDesc]
  | cons y ys ih =>
    rcases List.pairwise_cons.mp h with ⟨hy, hys⟩
    unfold insertDesc
    split
    next hc => simp [List.filter_cons]
    next hc =>
      have hyx : decide (y.1 = x.1) = false := by
        simp only [decide_eq_false_iff_not]
        exact fun hyx => hc (le_of_eq hyx)
      simp only [List.filter_cons, hyx, ih hys]
      simp

theorem sortDesc_filter {α : Type} (l : List (ℚ × α)) (s : ℚ) :
    (sortDesc l).filter (fun q => decide (q.1 = s)) =
      l.filter (fun q => decide (q.1 = s)) := by
  induction l with
  | nil => rfl
  | cons x xs ih =>
    show (insertDesc x (sortDesc xs)).filter _ = _
    by_cases hx : x.1 = s
    · subst hx
      rw [insertDesc_filter_eq x (sortDesc xs) (sortDesc_pairwise xs), ih]
      simp [List.filter_cons]
    · have hxb : decide (x.1 = s) = false := by simpa using hx
      rw [insertDesc_filter_ne x (sortDesc xs) s hxb, ih]
      simp [List.filter_cons, hxb]

theorem insertDesc_map_snd {α β : Type} (f : α → β) (x : ℚ × α)
    (l : List (ℚ × α)) :
    (insertDesc x l).map (fun q => (q.1, f q.2)) =
      insertDesc (x.1, f x.2) (l.map (fun q => (q.1, f q.2))) := by
  induction l with
  | nil => rfl
  | cons y ys ih =>
    unfold insertDesc
    split
    next hc => simp [insertDesc, hc]
    next hc => simp [insertDesc, hc, ih]

theorem sortDesc_map_snd {α β : Type} (f : α → β) (l : List (ℚ × α)) :
    (sortDesc l).map (fun q => (q.1, f q.2)) =
      sortDesc (l.map (fun q => (q.1, f q.2))) := by
  induction l with
  | nil => rfl
  | cons x xs ih =>
    show (insertDesc x (sortDesc xs)).map _ = _
    rw [insertDesc_map_snd, ih]
    rfl

/-! ## Claim C7: the Ranker -/

/-- C7: `rank_items` pairs every item with the dot product of the preference
vector and its built genre vector, sorts in descending score order, keeps
ties in input order (stability stated through score-filters), and compares
only on the numeric score — relabelling the payloads commutes with ranking. -/
theorem rank_items_sorted_stable {α γ : Type} (items : List α) (pv : List ℚ)
    (gi : γ) (vb : α → γ → List ℚ) :
    (rank_items items pv gi vb).Perm
      (items.map (fun it => (dot pv (vb it gi), it))) ∧
    (rank_items items pv gi vb).Pairwise (fun a b => b.1 ≤ a.1) ∧
    (∀ s : ℚ, (rank_items items pv gi vb).filter (fun q => decide (q.1 = s)) =
      (items.map (fun it => (dot pv (vb it gi), it))).filter
        (fun q => decide (q.1 = s))) ∧
    (∀ (β : Type) (f : α → β) (vb2 : β → γ → List ℚ),
      (∀ a, vb2 (f a) gi = vb a gi) →
      rank_items (items.map f) pv gi vb2 =
        (rank_items items pv gi vb).map (fun q => (q.1, f q.2))) := by
  refine ⟨sortDesc_perm _, sortDesc_pairwise _, fun s => sortDesc_filter _ s, ?_⟩
  intro β f vb2 hcompat
  unfold rank_items
  rw [sortDesc_map_snd]
  congr 1
  rw [List.map_map, List.map_map]
  refine List.map_congr_left ?_
  intro a _
  simp [Function.comp, hcompat a]

/-- Witness for C7: payload relabelling at a concrete list, discharging the
vector-builder compatibility hypothesis. -/
theorem rank_items_sorted_stable_witness :
    rank_items ([0, 1].map Nat.succ) [1] () (fun n _ => [((n - 1 : ℕ) : ℚ)]) =
      (rank_items [0, 1] [1] () (fun n _ => [((n : ℕ) : ℚ)])).map
        (fun q => (q.1, Nat.succ q.2)) :=
  (rank_items_sorted_stable [0, 1] [1] () (fun n _ => [((n : ℕ) : ℚ)])).2.2.2
    ℕ Nat.succ (fun n _ => [((n - 1 : ℕ) : ℚ)]) (fun _ => rfl)

/-! ## Claim C1: the diversity re-ranker -/

theorem div_step_map_snd (acc : List (ℚ × Item)) (si : ℚ × Item) :
    (div_step acc si).map Prod.snd = acc.map Prod.snd ++ [si.2] := by
  unfold div_step
  split <;> simp

theorem div_fold_map_snd (cands : List (ℚ × Item)) :
    ∀ acc : List (ℚ × Item),
      ((cands.foldl div_step acc).map Prod.snd) =
        acc.map Prod.snd ++ cands.map Prod.snd := by
  induction cands with
  | nil => simp
  | cons c cs ih =>
    intro acc
    rw [List.foldl_cons, ih, div_step_map_snd]
    simp

theorem div_select_map_snd (cands : List (ℚ × Item)) :
    (div_select cands).map Prod.snd = cands.map Prod.snd := by
  simpa using div_fold_map_snd cands []

/-- C1 (amended): `diversify_results` returns an input of at most `window`
items unchanged; on a longer input it penalizes and re-sorts the top
`window` items only and its output consists of exactly those window items —
every item below the window is dropped rather than appended. -/
theorem diversify_results_window_only (items : List (ℚ × Item)) (n : ℕ) :
    (items.length ≤ n → diversify_results items n = items) ∧
    (n < items.length →
      ((diversify_results items n).map Prod.snd).Perm
        ((items.take n).map Prod.snd) ∧
      (diversify_results items n).Pairwise (fun a b => b.1 ≤ a.1)) := by
  constructor
  · intro h; unfold diversify_results; rw [if_pos h]
  · intro h
    unfold diversify_results
    rw [if_neg (not_le.mpr h)]
    refine ⟨?_, sortDesc_pairwise _⟩
    have h1 := (sortDesc_perm (div_select (items.take n))).map Prod.snd
    rw [div_select_map_snd] at h1
    exact h1

/-- C1 counterexample: with window 1 and two items, the item below the window
disappears from the output instead of being appended unchanged after the
re-ranked window. -/
theorem diversify_results_drops_tail_cex :
    diversify_results [((1 : ℚ), Item.mk (some [18]) (some 10)),
      ((2 : ℚ), Item.mk (some [18]) (some 20))] 1 =
      [((1 : ℚ), Item.mk (some [18]) (some 10))] ∧
    ((2 : ℚ), Item.mk (some [18]) (some 20)) ∉
      diversify_results [((1 : ℚ), Item.mk (some [18]) (some 10)),
        ((2 : ℚ), Item.mk (some [18]) (some 20))] 1 := by
  constructor
  · with_unfolding_all decide
  · with_unfolding_all decide

/-- Witness for C1: a short input comes back unchanged, and a long input
yields a descending window-only result. -/
theorem diversify_results_window_only_witness :
    diversify_results [((1 : ℚ), Item.mk none none)] 5 =
      [((1 : ℚ), Item.mk none none)] ∧
    (diversify_results [((3 : ℚ), Item.mk none none),
      ((1 : ℚ), Item.mk none none)] 1).Pairwise (fun a b => b.1 ≤ a.1) := by
  constructor
  · exact (diversify_results_window_only [((1 : ℚ), Item.mk none none)] 5).1
      (by with_unfolding_all decide)
  · exact ((diversify_results_window_only [((3 : ℚ), Item.mk none none),
      ((1 : ℚ), Item.mk none none)] 1).2 (by with_unfolding_all decide)).2

/-! ## Claim C8: the context filter -/

theorem smart_filter_primary_eq (prefs bans : List String) (thr : ℚ)
    (items : List (ℚ × Item)) :
    smart_filter_primary prefs (banned_genre_ids bans) thr items =
      items.filter (fun p => decide (spec_smart_keep prefs bans thr p)) := by
  unfold smart_filter_primary
  apply List.filter_congr
  intro p _
  rw [Bool.eq_iff_iff]
  simp [spec_smart_keep, List.any_eq_true, List.mem_dedup, List.mem_map]

theorem smart_filter_relaxed_eq (bans : List String) (items : List (ℚ × Item)) :
    smart_filter_relaxed (banned_genre_ids bans) items =
      (items.filter (fun p => decide (spec_no_banned bans p))).take 15 := by
  unfold smart_filter_relaxed
  congr 1
  apply List.filter_congr
  intro p _
  rw [Bool.eq_iff_iff]
  simp [spec_no_banned, List.any_eq_true]

/-- C8: under each strong key the Context Filter keeps exactly the items with
no banned genre identifier that carry a preferred genre or reach the key's
threshold — (romantic, partner): Romance/Drama/Comedy preferred,
Horror/Thriller banned, threshold 0.15; (scared, alone):
Horror/Thriller/Mystery preferred, Comedy/Animation/Romance banned,
threshold 0.05; (excited, friends): Action/Comedy/Adventure/Thriller
preferred, nothing banned, threshold 0.20 — and whenever fewer than 5 items
survive it instead returns all items with no banned genre, truncated to the
first 15 in prior order. -/
theorem smart_genre_filter_spec (items : List (ℚ × Item)) :
    ((5 ≤ (items.filter (fun p => decide (spec_smart_keep
        ["Romance", "Drama", "Comedy"] ["Horror", "Thriller"] 0.15 p))).length →
      smart_genre_filter ("romantic", "partner") items =
        items.filter (fun p => decide (spec_smart_keep
          ["Romance", "Drama", "Comedy"] ["Horror", "Thriller"] 0.15 p))) ∧
     ((items.filter (fun p => decide (spec_smart_keep
        ["Romance", "Drama", "Comedy"] ["Horror", "Thriller"] 0.15 p))).length < 5 →
      smart_genre_filter ("romantic", "partner") items =
        (items.filter (fun p => decide (spec_no_banned
          ["Horror", "Thriller"] p))).take 15)) ∧
    ((5 ≤ (items.filter (fun p => decide (spec_smart_keep
        ["Horror", "Thriller", "Mystery"] ["Comedy", "Animation", "Romance"]
        0.05 p))).length →
      smart_genre_filter ("scared", "alone") items =
        items.filter (fun p => decide (spec_smart_keep
          ["Horror", "Thriller", "Mystery"] ["Comedy", "Animation", "Romance"]
          0.05 p))) ∧
     ((items.filter (fun p => decide (spec_smart_keep
        ["Horror", "Thriller", "Mystery"] ["Comedy", "Animation", "Romance"]
        0.05 p))).length < 5 →
      smart_genre_filter ("scared", "alone") items =
        (items.filter (fun p => decide (spec_no_banned
          ["Comedy", "Animation", "Romance"] p))).take 15)) ∧
    ((5 ≤ (items.filter (fun p => decide (spec_smart_keep
        ["Action", "Comedy", "Adventure", "Thriller"] [] 0.20 p))).length →
      smart_genre_filter ("excited", "friends") items =
        items.filter (fun p => decide (spec_smart_keep
          ["Action", "Comedy", "Adventure", "Thriller"] [] 0.20 p))) ∧
     ((items.filter (fun p => decide (spec_smart_keep
        ["Action", "Comedy", "Adventure", "Thriller"] [] 0.20 p))).length < 5 →
      smart_genre_filter ("excited", "friends") items =
        (items.filter (fun p => decide (spec_no_banned [] p))).take 15)) := by
  have hr1 : smart_filter_rules ("romantic", "partner") =
      (["Romance", "Drama", "Comedy"], ["Horror", "Thriller"], 0.15) := rfl
  have hr2 : smart_filter_rules ("scared", "alone") =
      (["Horror", "Thriller", "Mystery"], ["Comedy", "Animation", "Romance"],
        0.05) := by with_unfolding_all rfl
  have hr3 : smart_filter_rules ("excited", "friends") =
      (["Action", "Comedy", "Adventure", "Thriller"], [], 0.20) := by
    with_unfolding_all rfl
  refine ⟨⟨?_, ?_⟩, ⟨?_, ?_⟩, ⟨?_, ?_⟩⟩ <;> intro h <;>
    simp only [smart_genre_filter, hr1, hr2, hr3] <;>
    rw [smart_filter_primary_eq] <;>
    [rw [if_neg (not_lt.mpr h)]; rw [if_pos h, smart_filter_relaxed_eq];
     rw [if_neg (not_lt.mpr h)]; rw [if_pos h, smart_filter_relaxed_eq];
     rw [if_neg (not_lt.mpr h)]; rw [if_pos h, smart_filter_relaxed_eq]]

/-- Witness for C8: a single Horror item under (romantic, partner) fails the
primary pass, which triggers the relaxation, and the banned item is dropped
there too. -/
theorem smart_genre_filter_spec_witness :
    smart_genre_filter ("romantic", "partner")
      [((1 : ℚ), Item.mk (some [27]) none)] = [] := by
  have h := ((smart_genre_filter_spec [((1 : ℚ), Item.mk (some [27]) none)]).1).2
    (by with_unfolding_all decide)
  rw [h]
  with_unfolding_all decide

/-! ## Claim C10: doubled genre weight when no movie genres were found -/

set_option maxHeartbeats 1600000 in
theorem GENRE_INDEX_eq_some_iff (g : String) (i : ℕ) :
    GENRE_INDEX g = some i ↔ i < 12 ∧ GENRES.getD i "" = g := by
  constructor
  · intro h
    unfold GENRE_INDEX at h
    split_ifs at h with e1 e2 e3 e4 e5 e6 e7 e8 e9 e10 e11 e12
    all_goals first
    | exact Option.noConfusion h
    | (simp only [Option.some.injEq] at h; subst h; simp_all [GENRES])
  · rintro ⟨hi, hg⟩
    subst hg
    interval_cases i <;> with_unfolding_all decide

theorem GENRE_INDEX_lt (g : String) (i : ℕ) (h : GENRE_INDEX g = some i) :
    i < 12 := ((GENRE_INDEX_eq_some_iff g i).mp h).1

theorem filter_index_count (i : ℕ) (hi : i < 12) :
    ∀ d : List String, d.Nodup →
      (d.filter (fun g => decide (GENRE_INDEX g = some i))).length =
        if GENRES.getD i "" ∈ d then 1 else 0 := by
  intro d
  induction d with
  | nil => intro _; simp
  | cons g gs ih =>
    intro hd
    rcases List.nodup_cons.mp hd with ⟨hg, hgs⟩
    by_cases hgi : GENRE_INDEX g = some i
    · have hgg : GENRES.getD i "" = g := ((GENRE_INDEX_eq_some_iff g i).mp hgi).2
      subst hgg
      rw [List.filter_cons_of_pos (by simpa using hgi), List.length_cons,
        ih hgs, if_neg hg, if_pos (List.mem_cons_self _ _)]
    · have hne : GENRES.getD i "" ≠ g :=
        fun he => hgi ((GENRE_INDEX_eq_some_iff g i).mpr ⟨hi, he⟩)
      rw [List.filter_cons_of_neg (by simpa using hgi), ih hgs]
      by_cases hm : GENRES.getD i "" ∈ gs
      · rw [if_pos hm, if_pos (List.mem_cons_of_mem _ hm)]
      · rw [if_neg hm, if_neg (by rw [List.mem_cons]; push_neg; exact ⟨hne, hm⟩)]

theorem genre_list_signal_getD (gs : List String) (v : List ℚ)
    (hv : v.length = 12) (i : ℕ) (hi : i < 12) :
    (genre_list_signal gs v).getD i 0 =
      v.getD i 0 + (1/2) *
        ((gs.filter (fun g => decide (GENRE_INDEX g = some i))).length : ℚ) := by
  induction gs generalizing v with
  | nil => simp [genre_list_signal]
  | cons g gs ih =>
    rw [genre_list_signal_cons]
    cases hg : GENRE_INDEX g with
    | none =>
      simp only []
      rw [ih v hv, List.filter_cons_of_neg (by simp [hg])]
    | some j =>
      have hj : j < 12 := GENRE_INDEX_lt g j hg
      simp only []
      have hlen' : (addAt v j (1/2)).length = 12 := by rw [addAt_length, hv]
      rw [ih _ hlen']
      by_cases hij : j = i
      · subst hij
        rw [addAt, getD_set_self v j _ (by omega),
          List.filter_cons_of_pos (by simp [hg]), List.length_cons]
        push_cast
        ring
      · rw [addAt, getD_set_ne v j i _ hij,
          List.filter_cons_of_neg (by simp [hg, hij])]

theorem getD_replicate_zero (n i : ℕ) : (List.replicate n (0 : ℚ)).getD i 0 = 0 := by
  induction n generalizing i with
  | zero => simp
  | succ k ih =>
    cases i with
    | zero => simp [List.replicate_succ]
    | succ j => simpa [List.replicate_succ] using ih j

/-- C10: when favorite-movie genre extraction found nothing, both entry
points pass the combined deduplicated user genre list as both rule-engine
genre arguments, so each recognized user-listed genre accumulates
0.50 + 0.50 = 1.0 in the pre-penalty, pre-normalization vector. -/
theorem empty_movie_genres_double_weight (user_genres : List String)
    (c m : String) :
    rule_call [] user_genres c m =
      build_rule_preference_vector user_genres.dedup user_genres.dedup c m ∧
    (∀ i : ℕ, i < 12 →
      (genre_list_signal user_genres.dedup
        (genre_list_signal user_genres.dedup (List.replicate 12 0))).getD i 0 =
        if GENRES.getD i "" ∈ user_genres then 1 else 0) := by
  constructor
  · rfl
  · intro i hi
    have h1 := genre_list_signal_getD user_genres.dedup (List.replicate 12 0)
      (by simp) i hi
    have hlen : (genre_list_signal user_genres.dedup
        (List.replicate 12 0)).length = 12 := by
      rw [genre_list_signal_length]; simp
    have h2 := genre_list_signal_getD user_genres.dedup _ hlen i hi
    rw [h2, h1, filter_index_count i hi _ (List.nodup_dedup _),
      getD_replicate_zero]
    by_cases hmem : GENRES.getD i "" ∈ user_genres
    · rw [if_pos (List.mem_dedup.mpr hmem), if_pos hmem]
      norm_num
    · rw [if_neg (fun hc => hmem (List.mem_dedup.mp hc)), if_neg hmem]
      norm_num

/-- Witness for C10: the single listed genre "Drama" ends at weight 1 at its
taxonomy position in the doubled pre-penalty signal. -/
theorem empty_movie_genres_double_weight_witness :
    (genre_list_signal (["Drama"] : List String).dedup
      (genre_list_signal (["Drama"] : List String).dedup
        (List.replicate 12 0))).getD 5 0 = 1 := by
  have h := (empty_movie_genres_double_weight ["Drama"] "c" "m").2 5 (by omega)
  rw [h]
  with_unfolding_all decide

end MovieRec
